import Mathlib

/-!
Verification development for the VMware GuestInfo cloud-init datasource
(`DataSourceVMwareGuestInfo.py`).  The Python module is shallowly embedded:
JSON/YAML-like structured values become the inductive type `Value`, Python
dictionaries become association lists with Python-dict update semantics,
fallible code returns `Except PyErr`, and calls into external libraries
(`vmtoolsd` transport, `json`/`safeyaml` parsers, `base64`/`zlib` transforms,
the `netifaces` system queries) are modelled as explicit inputs, with their
concrete behaviour embedded where the source depends on it (`deepmerge`'s
`always_merger` strategies, the attribute set exported by `netifaces`).
-/

/-- Structured values as produced by Python's json/yaml loaders: `None`,
booleans, numbers, strings, lists and dictionaries.  Dictionaries are
association lists in insertion order, matching Python dict semantics. -/
inductive Value where
  | null : Value
  | bool : Bool → Value
  | num : Int → Value
  | str : String → Value
  | list : List Value → Value
  | dict : List (String × Value) → Value

/-- A Python dictionary with string keys. -/
abbrev Dict := List (String × Value)

/-- Python truthiness of a structured value: `None`, `False`, `0`, `""`,
`[]` and `{}` are falsy, everything else is truthy. -/
def Value.truthy : Value → Bool
  | .null => false
  | .bool b => b
  | .num n => n != 0
  | .str s => s != ""
  | .list l => !l.isEmpty
  | .dict d => !d.isEmpty

/-- Python errors raised (or raisable) by the embedded code. -/
inductive PyErr where
  | keyError (key : String)
  | attributeError (name : String)
  | valueError
  | nameError

/-- Dictionary read `d.get(q)`: the value stored at key `q`, if any. -/
def aget {κ α : Type} [DecidableEq κ] : List (κ × α) → κ → Option α
  | [], _ => none
  | (k, v) :: t, q => if q = k then some v else aget t q

/-- Dictionary write `d[k] = v`: replaces the value at an existing key in
place, otherwise appends the new binding (Python insertion order). -/
def aset {κ α : Type} [DecidableEq κ] : List (κ × α) → κ → α → List (κ × α)
  | [], k, v => [(k, v)]
  | (k1, v1) :: t, k, v => if k = k1 then (k, v) :: t else (k1, v1) :: aset t k v

/-- Dictionary delete `del d[k]` (on a key known to be present; on an
association list it removes every binding of that key). -/
def adel {κ α : Type} [DecidableEq κ] (l : List (κ × α)) (k : κ) : List (κ × α) :=
  l.filter (fun p => decide (p.1 ≠ k))

mutual
/-- Merge strategy of `deepmerge.always_merger`, used by the source at
`merge_meta_host_data` (line 465): two dicts are merged recursively, two
lists are concatenated (`base + nxt`, the library's "append" strategy for
lists), and in every other case — scalars, or a type conflict — the second
("next", here: metadata) value wins outright (the library's "override"
fallback and type-conflict strategy). -/
def deep_merge : Value → Value → Value
  | .dict b, .dict n => .dict (merge_into b n)
  | .list b, .list n => .list (b ++ n)
  | _, nxt => nxt
termination_by structural _ n => n

/-- Dict-merge strategy of `deepmerge.always_merger`: for each key of the
second dict, recursively merge into the first dict (which the library
mutates in place and returns). -/
def merge_into : Dict → Dict → Dict
  | base, [] => base
  | base, (k, v) :: rest =>
    merge_into
      (match aget base k with
       | some bv => aset base k (deep_merge bv v)
       | none => aset base k v)
      rest
termination_by structural _ l => l
end

/-- Embedding of `merge_meta_host_data(metadata, host_info)` (source lines
462-471).  `always_merger.merge(host_info, metadata)` mutates and returns
`host_info`, so `res` aliases the `host_info` argument; the final statement
`res['hostname'] = res['local-hostname']` raises `KeyError` when
`'local-hostname'` is absent from the merged dict.  The Python function body
has no `return` statement, so on success it returns `None`; the embedding
returns the pair (Python return value, final state of the mutated
`host_info` argument). -/
def merge_meta_host_data (metadata host_info : Dict) : Except PyErr (Option Value × Dict) :=
  let res := merge_into host_info metadata
  match aget res "local-hostname" with
  | some lh => Except.ok (none, aset res "hostname" lh)
  | none => Except.error (PyErr.keyError "local-hostname")

/-- Embedding of `decode(key, enc_type, data)` (source lines 170-209).  The
stdlib transforms `base64.b64decode`, `zlib.decompress(-, MAX_WBITS|16)` and
`bytes.decode('utf-8')` are external library calls; they are passed in as
functions over an abstract byte-string type `β`.  `enc_type` is the value
fetched for the sibling `.encoding` key (`none` models Python `None`); the
dispatch on its string value and the composition order of the transforms are
embedded from the source.  When no recognized encoding is declared the data
is returned untransformed (it is a `str`, not `bytes`, so the final UTF-8
normalization step does not apply). -/
def decode {β : Type} (b64decode : String → Except PyErr β)
    (zlib_decompress : β → Except PyErr β) (utf8 : β → Except PyErr String)
    (key : String) (enc_type : Option String) (data : String) :
    Except PyErr String :=
  let _ := key
  if enc_type == some "gzip+base64" || enc_type == some "gz+b64" then do
    let b ← b64decode data
    let raw_data ← zlib_decompress b
    utf8 raw_data
  else if enc_type == some "base64" || enc_type == some "b64" then do
    let raw_data ← b64decode data
    utf8 raw_data
  else
    Except.ok data

/-- Embedding of `load(data)` (source lines 250-261).  The external parsers
`json.loads` (strict) and `safeyaml.load` (permissive) are passed in as
functions.  `data` is the guestinfo payload: `none` models Python `None`;
falsy data (absent or empty) yields an empty dict.  Otherwise the strict
parser is attempted and, on any failure (the bare `except:`), the permissive
parser's outcome — success or error — is returned. -/
def load (json_loads safeyaml_load : String → Except PyErr Value)
    (data : Option String) : Except PyErr Value :=
  match data with
  | none => Except.ok (Value.dict [])
  | some s =>
    if s == "" then Except.ok (Value.dict [])
    else
      match json_loads s with
      | Except.ok v => Except.ok v
      | Except.error _ => safeyaml_load s

/-- Python truthiness of an optional string (`None` and `""` are falsy). -/
def optFalsy : Option String → Bool
  | none => true
  | some s => s == ""

/-- Embedding of `guestinfo(key)` (source lines 238-247).  The transport
`get_guestinfo_value` is the oracle `getv : String → Option String` (it
returns `None` on every failure path), and `decode` is passed in partially
applied as `dec : key → enc_type → data → ...`.  The second component of the
result instruments the embedding with the list of guestinfo keys actually
fetched through the transport; the Python function returns only the first
component. -/
def guestinfo (getv : String → Option String)
    (dec : String → Option String → String → Except PyErr String)
    (key : String) : Except PyErr (Option String) × List String :=
  let data := getv key
  if optFalsy data then (Except.ok none, [key])
  else
    match data with
    | some s =>
      let enc_type := getv (key ++ ".encoding")
      ((dec ("guestinfo." ++ key) enc_type s).map some, [key, key ++ ".encoding"])
    | none => (Except.ok none, [key])

/-- Embedding of the network-key resolution step of `load_metadata` (source
lines 272-299), starting from the already-parsed top-level mapping `data`.
The nested calls `decode('metadata.network', network_enc, network)` and
`load(dec_net)` are passed in as `decodeF` and `loadF`.  The two `del`
statements only execute when the key is present; `adel` is the identity on
an absent key, so it is applied unconditionally.  `copy.deepcopy` is the
identity in this pure model.  Note the `if network:` truthiness test: a
falsy `network` value (for example an empty mapping) is deleted from the
document and never re-added. -/
def load_metadata_resolve (decodeF : Option Value → Value → Except PyErr Value)
    (loadF : Value → Except PyErr Value) (data : Dict) : Except PyErr Dict :=
  let network : Option Value := aget data "network"
  let data1 := adel data "network"
  let network_enc : Option Value := aget data1 "network.encoding"
  let data2 := adel data1 "network.encoding"
  match network with
  | none => Except.ok data2
  | some nw =>
    if nw.truthy then
      match nw with
      | Value.dict m =>
        Except.ok (aset data2 "network" (Value.dict [("config", Value.dict m)]))
      | _ => do
        let dec_net ← decodeF network_enc nw
        let cfg ← loadF dec_net
        Except.ok (aset data2 "network" (Value.dict [("config", cfg)]))
    else Except.ok data2

/-- Concrete stand-in for the `decode` callback when instantiating
`load_metadata_resolve` on concrete inputs: returns the data unchanged. -/
def sampleDecode : Option Value → Value → Except PyErr Value :=
  fun _ v => Except.ok v

/-- Concrete stand-in for the `load` callback when instantiating
`load_metadata_resolve` on concrete inputs: parses nothing and returns a
fixed network-config mapping. -/
def sampleLoad : Value → Except PyErr Value :=
  fun _ => Except.ok (Value.dict [("dhcp", Value.bool true)])

/-- Concrete strict parser used to instantiate `load` on concrete inputs:
accepts only the text `1`. -/
def sampleJson : String → Except PyErr Value :=
  fun s => if s == "1" then Except.ok (Value.num 1) else Except.error PyErr.valueError

/-- Concrete permissive parser used to instantiate `load` on concrete
inputs: accepts any text as a string scalar. -/
def sampleYaml : String → Except PyErr Value :=
  fun s => Except.ok (Value.str s)

/-- One address record returned by `netifaces.ifaddresses` for one address
family: an association list of string fields such as `addr`, `netmask`,
`broadcast`, `peer`. -/
abbrev AddrRec := List (String × String)

/-- Address families of one device: association list from an address-family
constant (`netifaces.AF_*`) to that family's list of address records. -/
abbrev Fams := List (Nat × List AddrRec)

/-- State of the host network as observable through the `netifaces` library:
the `'default'` entry of `netifaces.gateways()` (association list from
family constant to the `(gateway, device)` pair), the table backing
`netifaces.ifaddresses`, and the list `netifaces.interfaces()`. -/
structure NetState where
  gateways_default : Option (List (Nat × (String × String)))
  ifaddrs : List (String × Fams)
  interfaces : List String

/-- Address-family constants exported by the `netifaces` module (values as
on Linux).  `AF_INET4` — referenced by the source at line 372 — is not among
the module's attributes, so accessing it raises `AttributeError`. -/
def netifaces_attr : String → Option Nat
  | "AF_LINK" => some 17
  | "AF_INET" => some 2
  | "AF_INET6" => some 10
  | _ => none

/-- netifaces.AF_LINK. -/
def AF_LINK : Nat := 17

/-- netifaces.AF_INET. -/
def AF_INET : Nat := 2

/-- netifaces.AF_INET6. -/
def AF_INET6 : Nat := 10

/-- `netifaces.ifaddresses(dev)`: raises `ValueError` for a device name the
system does not know. -/
def ifaddresses (st : NetState) (dev : String) : Except PyErr Fams :=
  match aget st.ifaddrs dev with
  | some fams => Except.ok fams
  | none => Except.error PyErr.valueError

/-- Embedding of the per-family default-address blocks of
`get_default_ip_addrs` (source lines 328-339 for IPv4 and the identical
343-354 for IPv6): when the family has a default gateway, read the gateway
device's addresses for that family; adopt the address when there is exactly
one record and it carries `addr`, warn-and-leave-undetermined when there is
more than one.  The `ifaddresses` result for the gateway device is returned
as well, because the cross-inference steps reuse the Python locals
`addr4_fams`/`addr6_fams` (`none` models the local being unbound). -/
def default_addr_for (st : NetState) (default_gw : List (Nat × (String × String)))
    (fam : Nat) : Except PyErr (Option String × Option Fams) :=
  match aget default_gw fam with
  | none => Except.ok (none, none)
  | some gw => do
    let addr_fams ← ifaddresses st gw.2
    if addr_fams.isEmpty then Except.ok (none, some addr_fams)
    else
      match aget addr_fams fam with
      | none => Except.ok (none, some addr_fams)
      | some recs =>
        match recs with
        | [] => Except.ok (none, some addr_fams)
        | [r] =>
          match aget r "addr" with
          | some a => Except.ok (some a, some addr_fams)
          | none => Except.ok (none, some addr_fams)
        | _ :: _ :: _ => Except.ok (none, some addr_fams)

/-- Embedding of the cross-inference blocks of `get_default_ip_addrs`
(source lines 359-366 and 371-378): in the default device's address
families, look up the other family and adopt its address when there is
exactly one record carrying `addr`; `none` means "leave the default
undetermined". -/
def cross_infer (addr_fams : Fams) (fam : Nat) : Option String :=
  match aget addr_fams fam with
  | none => none
  | some recs =>
    match recs with
    | [] => none
    | [r] => aget r "addr"
    | _ :: _ :: _ => none

/-- Embedding of `get_default_ip_addrs()` (source lines 309-380).  The
second cross-inference branch (line 372) evaluates `netifaces.AF_INET4`, an
attribute the `netifaces` module does not export (see `netifaces_attr`), so
reaching that branch raises `AttributeError`.  The `none` cases for
`addr4_fams`/`addr6_fams` in the cross-inference branches are unreachable (a
truthy default address implies that family's gateway branch bound the local)
and are modelled as Python's `NameError` for an unbound local. -/
def get_default_ip_addrs (st : NetState) : Except PyErr (Option String × Option String) :=
  match st.gateways_default with
  | none => Except.ok (none, none)
  | some default_gw =>
    if (aget default_gw AF_INET).isNone && (aget default_gw AF_INET6).isNone then
      Except.ok (none, none)
    else do
      let p4 ← default_addr_for st default_gw AF_INET
      let p6 ← default_addr_for st default_gw AF_INET6
      let ipv4 := p4.1
      let ipv6 ←
        if !(optFalsy ipv4) && optFalsy p6.1 then
          match p4.2 with
          | some addr4_fams =>
            Except.ok (match cross_infer addr4_fams AF_INET6 with
              | some a => some a
              | none => p6.1)
          | none => Except.error PyErr.nameError
        else Except.ok p6.1
      if optFalsy ipv4 && !(optFalsy ipv6) then
        match p6.2 with
        | none => Except.error PyErr.nameError
        | some addr6_fams =>
          match netifaces_attr "AF_INET4" with
          | none => Except.error (PyErr.attributeError "AF_INET4")
          | some af =>
            match cross_infer addr6_fams af with
            | some a => Except.ok (some a, ipv6)
            | none => Except.ok (ipv4, ipv6)
      else
        Except.ok (ipv4, ipv6)

/-- Conversion of one `netifaces` address record to a structured value (a
Python dict of strings). -/
def recToValue (r : AddrRec) : Value :=
  Value.dict (r.map fun p => (p.1, Value.str p.2))

/-- Conversion of a list of `netifaces` address records to a structured
value. -/
def recsToValue (l : List AddrRec) : Value :=
  Value.list (l.map recToValue)

/-- Embedding of the per-address recording loops of `get_host_info` (source
lines 437-446 and 448-457): index each record by its `addr` field (the
subscript `ip_info['addr']` raises `KeyError` when the field is missing),
skip the loopback address, record a copy with the `addr` field deleted and
the device MAC added when the MAC is truthy. -/
def record_ips (loopback : String) (mac : Option String) :
    List (String × Value) → List AddrRec → Except PyErr (List (String × Value))
  | idx, [] => Except.ok idx
  | idx, r :: rest =>
    match aget r "addr" with
    | none => Except.error (PyErr.keyError "addr")
    | some key =>
      if key == loopback then record_ips loopback mac idx rest
      else
        let val := adel r "addr"
        let val :=
          match mac with
          | some m => if m != "" then aset val "mac" m else val
          | none => val
        record_ips loopback mac (aset idx key (recToValue val)) rest

/-- The three interface indexes `(by-mac, by-ipv4, by-ipv6)` of
`get_host_info`. -/
abbrev Idx3 := (List (String × Value)) × (List (String × Value)) × (List (String × Value))

/-- Device MAC read in the interface loop of `get_host_info` (source lines
420-422): `if af_link and 'addr' in af_link[0]: mac = af_link[0]['addr']` —
`None` when the link-layer family is absent, its record list empty, or its
first record lacks `addr`. -/
def devMac (addr_fams : Fams) : Option String :=
  match aget addr_fams AF_LINK with
  | some (r :: _) => aget r "addr"
  | _ => none

/-- Python truthiness of a `dict.get` result for an address-record list
(`None` and `[]` are falsy). -/
def famTruthy (o : Option (List AddrRec)) : Bool :=
  match o with
  | some l => !l.isEmpty
  | none => false

/-- Embedding of the `by-mac` recording step of `get_host_info` (source
lines 428-435): `if mac and (af_inet4 or af_inet6)`, record
`{ipv4: ..., ipv6: ...}` (restricted to the truthy families) under the
MAC. -/
def byMacUpdate (by_mac : List (String × Value)) (mac : Option String)
    (af_inet4 af_inet6 : Option (List AddrRec)) : List (String × Value) :=
  match mac with
  | some m =>
    if m != "" && (famTruthy af_inet4 || famTruthy af_inet6) then
      let val : List (String × Value) := []
      let val := if famTruthy af_inet4 then aset val "ipv4" (recsToValue (af_inet4.getD [])) else val
      let val := if famTruthy af_inet6 then aset val "ipv6" (recsToValue (af_inet6.getD [])) else val
      aset by_mac m (Value.dict val)
    else by_mac
  | none => by_mac

/-- Embedding of one iteration of the interface loop of `get_host_info`
(source lines 414-457): read the device's MAC from its link-layer record,
skip the device entirely when the MAC is the all-zero localhost MAC,
otherwise record it in `by-mac` (when the MAC is truthy and at least one
family has addresses) and record its addresses in `by-ipv4`/`by-ipv6`. -/
def host_iface_step (st : NetState) (acc : Idx3) (dev_name : String) :
    Except PyErr Idx3 := do
  let addr_fams ← ifaddresses st dev_name
  let af_inet4 := aget addr_fams AF_INET
  let af_inet6 := aget addr_fams AF_INET6
  let mac : Option String := devMac addr_fams
  if mac == some "00:00:00:00:00:00" then Except.ok acc
  else do
    let by_mac := byMacUpdate acc.1 mac af_inet4 af_inet6
    let by_ipv4 ←
      if famTruthy af_inet4 then record_ips "127.0.0.1" mac acc.2.1 (af_inet4.getD [])
      else Except.ok acc.2.1
    let by_ipv6 ←
      if famTruthy af_inet6 then record_ips "::1" mac acc.2.2 (af_inet6.getD [])
      else Except.ok acc.2.2
    Except.ok (by_mac, by_ipv4, by_ipv6)

/-- Interface loop of `get_host_info`, folded over `netifaces.interfaces()`. -/
def host_iface_loop (st : NetState) (acc : Idx3) : List String → Except PyErr Idx3
  | [] => Except.ok acc
  | dev :: rest => do
    let acc1 ← host_iface_step st acc dev
    host_iface_loop st acc1 rest

/-- Embedding of `get_host_info()` (source lines 383-459).  The external
`socket.getfqdn()` is the input `hostname`.  The source creates the skeleton
document holding the three (initially empty, later mutated in place)
interface indexes, conditionally adds the hostname keys and the default
addresses, then fills the indexes in the interface loop; the embedding
computes the indexes first and assembles the identical document. -/
def get_host_info (st : NetState) (hostname : String) : Except PyErr Value := do
  let defaults ← get_default_ip_addrs st
  let idx ← host_iface_loop st ([], [], []) st.interfaces
  let host_info : Dict :=
    [("network", Value.dict [("interfaces", Value.dict
      [("by-mac", Value.dict idx.1),
       ("by-ipv4", Value.dict idx.2.1),
       ("by-ipv6", Value.dict idx.2.2)])])]
  let host_info :=
    if hostname != "" then
      aset (aset host_info "hostname" (Value.str hostname))
        "local-hostname" (Value.str hostname)
    else host_info
  let host_info :=
    match defaults.1 with
    | some a => if a != "" then aset host_info "local-ipv4" (Value.str a) else host_info
    | none => host_info
  let host_info :=
    match defaults.2 with
    | some a => if a != "" then aset host_info "local-ipv6" (Value.str a) else host_info
    | none => host_info
  Except.ok (Value.dict host_info)

/-- The all-zero MAC that `get_host_info` uses to recognize localhost. -/
def zeroMac : String := "00:00:00:00:00:00"

/-- Tests whether a recorded index entry carries `mac` equal to the all-zero
MAC. -/
def isZeroMacEntry : Value → Bool
  | .dict d =>
    match aget d "mac" with
    | some (Value.str m) => m == zeroMac
    | _ => false
  | _ => false

/-- Decidable cleanliness of a triple `(by-mac, by-ipv4, by-ipv6)` of
interface indexes: the all-zero MAC is not a `by-mac` key, the loopback
addresses are not index keys, and no recorded entry is attributed to the
all-zero MAC. -/
def cleanIdx (im i4 i6 : List (String × Value)) : Bool :=
  (aget im zeroMac).isNone &&
  (aget i4 "127.0.0.1").isNone &&
  (aget i6 "::1").isNone &&
  (i4.all fun p => !isZeroMacEntry p.2) &&
  (i6.all fun p => !isZeroMacEntry p.2)

/-- Reads one interface index out of a HostFacts document, following the
path `network → interfaces → <name>`. -/
def hf_index (doc : Value) (name : String) : Option Value :=
  match doc with
  | .dict d =>
    match aget d "network" with
    | some (.dict nw) =>
      match aget nw "interfaces" with
      | some (.dict ifs) => aget ifs name
      | _ => none
    | _ => none
  | _ => none

/-- Decidable cleanliness of a HostFacts document: all three interface
indexes are present and clean in the sense of `cleanIdx`. -/
def cleanDoc (doc : Value) : Bool :=
  match hf_index doc "by-mac", hf_index doc "by-ipv4", hf_index doc "by-ipv6" with
  | some (.dict im), some (.dict i4), some (.dict i6) => cleanIdx im i4 i6
  | _, _, _ => false

/-- Well-formedness of a `netifaces` state: address records carry address
metadata (`addr`, `netmask`, ...) but never a `mac` field — the `mac` field
in index entries is added by `get_host_info` itself. -/
def netWF (st : NetState) : Bool :=
  st.ifaddrs.all fun df => df.2.all fun fr => fr.2.all fun r => (aget r "mac").isNone

/-- The HostFacts document of a successful `get_host_info` run (`Value.null`
on error), used to state concrete instances without spelling the document
out. -/
def hostDocOf (st : NetState) (hostname : String) : Value :=
  match get_host_info st hostname with
  | Except.ok d => d
  | Except.error _ => Value.null

/-- Tests that a value is neither a mapping nor a list — the cases in which
`deepmerge.always_merger` lets the second (metadata) value win outright. -/
def scalar_like : Value → Bool
  | .dict _ => false
  | .list _ => false
  | _ => true

/-- Concrete host network state with a default IPv4 route on a dual-stack
device `eth0` that has exactly one address of each family. -/
def netStCross4 : NetState where
  gateways_default := some [(AF_INET, ("10.0.0.1", "eth0"))]
  ifaddrs := [("eth0",
    [(AF_INET, [[("addr", "10.0.0.2"), ("netmask", "255.255.255.0")]]),
     (AF_INET6, [[("addr", "fe80::2")]])])]
  interfaces := ["eth0"]

/-- Concrete host network state identical to `netStCross4` except that the
only default route is the IPv6 one. -/
def netStCross6 : NetState where
  gateways_default := some [(AF_INET6, ("fe80::1", "eth0"))]
  ifaddrs := [("eth0",
    [(AF_INET, [[("addr", "10.0.0.2"), ("netmask", "255.255.255.0")]]),
     (AF_INET6, [[("addr", "fe80::2")]])])]
  interfaces := ["eth0"]

/-- Concrete host network state with a loopback device carrying the all-zero
MAC and the loopback addresses, and a normal device that also carries a
spurious `127.0.0.1` record. -/
def netStHost : NetState where
  gateways_default := some [(AF_INET, ("10.0.0.1", "eth0"))]
  ifaddrs :=
    [("lo",
      [(AF_LINK, [[("addr", zeroMac)]]),
       (AF_INET, [[("addr", "127.0.0.1"), ("netmask", "255.0.0.0")]]),
       (AF_INET6, [[("addr", "::1")]])]),
     ("eth0",
      [(AF_LINK, [[("addr", "aa:bb:cc:dd:ee:ff")]]),
       (AF_INET, [[("addr", "10.0.0.2"), ("netmask", "255.255.255.0")],
                  [("addr", "127.0.0.1")]]),
       (AF_INET6, [[("addr", "fe80::2")]])])]
  interfaces := ["lo", "eth0"]

/-! Association-list lemmas (Python dict operations). -/

theorem aget_aset_self {κ α : Type} [DecidableEq κ] (l : List (κ × α)) (k : κ) (v : α) :
    aget (aset l k v) k = some v := by
  induction l with
  | nil => simp [aset, aget]
  | cons p t ih =>
    obtain ⟨k1, v1⟩ := p
    by_cases h : k = k1 <;> simp [aset, aget, h, ih]

theorem aget_aset_ne {κ α : Type} [DecidableEq κ] (l : List (κ × α)) (k q : κ) (v : α)
    (h : q ≠ k) : aget (aset l k v) q = aget l q := by
  induction l with
  | nil => simp [aset, aget, h]
  | cons p t ih =>
    obtain ⟨k1, v1⟩ := p
    by_cases h1 : k = k1
    · subst h1
      simp [aset, aget, h]
    · by_cases h2 : q = k1 <;> simp [aset, aget, h1, h2, ih]

theorem aget_adel_self {κ α : Type} [DecidableEq κ] (l : List (κ × α)) (k : κ) :
    aget (adel l k) k = none := by
  induction l with
  | nil => simp [adel, aget]
  | cons p t ih =>
    obtain ⟨k1, v1⟩ := p
    by_cases h : k1 = k
    · simpa [adel, aget, h] using ih
    · simpa [adel, aget, h, Ne.symm h] using ih

theorem aget_adel_ne {κ α : Type} [DecidableEq κ] (l : List (κ × α)) (k q : κ)
    (h : q ≠ k) : aget (adel l k) q = aget l q := by
  induction l with
  | nil => simp [adel, aget]
  | cons p t ih =>
    obtain ⟨k1, v1⟩ := p
    by_cases h1 : k1 = k
    · subst h1
      simpa [adel, aget, h] using ih
    · by_cases h2 : q = k1
      · simp [adel, aget, h1, h2]
      · simpa [adel, aget, h1, h2] using ih

theorem aget_eq_none_of_not_mem_keys {κ α : Type} [DecidableEq κ] (l : List (κ × α)) (k : κ)
    (h : k ∉ l.map Prod.fst) : aget l k = none := by
  induction l with
  | nil => simp [aget]
  | cons p t ih =>
    obtain ⟨k1, v1⟩ := p
    simp only [List.map_cons, List.mem_cons, not_or] at h
    simp [aget, h.1, ih h.2]

theorem mem_of_mem_aset {κ α : Type} [DecidableEq κ] (l : List (κ × α)) (k : κ) (v : α)
    (p : κ × α) (h : p ∈ aset l k v) : p ∈ l ∨ p = (k, v) := by
  induction l with
  | nil =>
    simp only [aset, List.mem_singleton] at h
    exact Or.inr h
  | cons q t ih =>
    obtain ⟨k1, v1⟩ := q
    by_cases h1 : k = k1
    · simp only [aset, if_pos h1, List.mem_cons] at h
      rcases h with h | h
      · exact Or.inr h
      · exact Or.inl (List.mem_cons_of_mem _ h)
    · simp only [aset, if_neg h1, List.mem_cons] at h
      rcases h with h | h
      · exact Or.inl (by simp [h])
      · rcases ih h with h2 | h2
        · exact Or.inl (List.mem_cons_of_mem _ h2)
        · exact Or.inr h2

/-! Characterization of the `always_merger` dict merge. -/

theorem merge_into_aget_of_none (b n : Dict) (q : String) (h : aget n q = none) :
    aget (merge_into b n) q = aget b q := by
  induction n generalizing b with
  | nil => simp [merge_into]
  | cons p rest ih =>
    obtain ⟨k, v⟩ := p
    by_cases hqk : q = k
    · simp [aget, hqk] at h
    · simp only [aget, if_neg hqk] at h
      cases hbk : aget b k <;>
        simp [merge_into, hbk, ih _ h, aget_aset_ne _ _ _ _ hqk]

theorem merge_into_aget_of_some (b n : Dict) (k : String) (v : Value)
    (hnd : (n.map Prod.fst).Nodup) (h : aget n k = some v) :
    aget (merge_into b n) k =
      some (match aget b k with
            | some bv => deep_merge bv v
            | none => v) := by
  induction n generalizing b with
  | nil => simp [aget] at h
  | cons p rest ih =>
    obtain ⟨k1, v1⟩ := p
    simp only [List.map_cons, List.nodup_cons] at hnd
    by_cases hk : k = k1
    · subst hk
      simp only [aget, if_true, eq_self_iff_true, Option.some.injEq] at h
      subst h
      have hrest : aget rest k = none :=
        aget_eq_none_of_not_mem_keys _ _ hnd.1
      cases hbk : aget b k <;>
        simp [merge_into, hbk, merge_into_aget_of_none _ _ _ hrest, aget_aset_self]
    · simp only [aget, if_neg hk] at h
      cases hbk : aget b k1 <;>
        simp [merge_into, hbk, ih _ hnd.2 h, aget_aset_ne _ _ _ _ hk]

/-- Helper: when the second (metadata) value is neither a mapping nor a
list, `always_merger` replaces the first value with it outright. -/
theorem deep_merge_scalar (bv v : Value) (h : scalar_like v = true) :
    deep_merge bv v = v := by
  cases bv <;> cases v <;> first
  | rfl
  | simp [scalar_like] at h

/-- Claim C1, counterexample: for discovered `{a: [1], local-hostname: h}`
and authoritative `{a: [2]}`, the authoritative value at `a` is a list (not
a mapping), yet the merged document holds the concatenation `[1, 2]` rather
than the authoritative value `[2]` — `always_merger` concatenates lists, so
"no list concatenation" fails. -/
theorem merge_list_concat_counterexample :
    merge_meta_host_data [("a", Value.list [Value.num 2])]
        [("a", Value.list [Value.num 1]), ("local-hostname", Value.str "h")]
      = Except.ok (none, [("a", Value.list [Value.num 1, Value.num 2]),
          ("local-hostname", Value.str "h"), ("hostname", Value.str "h")]) ∧
    Value.list [Value.num 1, Value.num 2] ≠ Value.list [Value.num 2] :=
  ⟨rfl, by simp⟩

/-- Claim C1 (amended): the generic merge of discovered dict `b` with
authoritative dict `n` (the `always_merger.merge` step of
`merge_meta_host_data`) never drops a key unique to either side; for a key
in both whose authoritative value is neither a mapping nor a list the
result is the authoritative value exactly; but when both values are lists
the result is the concatenation `discovered ++ authoritative`. -/
theorem merge_always_merger_semantics (b n : Dict) (k : String) (v bv : Value)
    (lb ln : List Value) (hnd : (n.map Prod.fst).Nodup) :
    deep_merge (Value.dict b) (Value.dict n) = Value.dict (merge_into b n) ∧
    (aget n k = none → aget (merge_into b n) k = aget b k) ∧
    (aget b k = none → aget n k = some v → aget (merge_into b n) k = some v) ∧
    (aget b k = some bv → aget n k = some v → scalar_like v = true →
      aget (merge_into b n) k = some v) ∧
    (aget b k = some (Value.list lb) → aget n k = some (Value.list ln) →
      aget (merge_into b n) k = some (Value.list (lb ++ ln))) := by
  refine ⟨rfl, ?_, ?_, ?_, ?_⟩
  · intro h
    exact merge_into_aget_of_none b n k h
  · intro hb hn
    rw [merge_into_aget_of_some b n k v hnd hn, hb]
  · intro hb hn hs
    rw [merge_into_aget_of_some b n k v hnd hn, hb]
    simp [deep_merge_scalar bv v hs]
  · intro hb hn
    rw [merge_into_aget_of_some b n k (Value.list ln) hnd hn, hb]
    rfl

/-- Witness for `merge_always_merger_semantics` at a concrete pair of
documents sharing a list-valued key. -/
theorem merge_always_merger_semantics_witness :
    aget (merge_into [("l", Value.list [Value.num 1])]
        [("l", Value.list [Value.num 2])]) "l"
      = some (Value.list [Value.num 1, Value.num 2]) :=
  (merge_always_merger_semantics [("l", Value.list [Value.num 1])]
      [("l", Value.list [Value.num 2])] "l" (Value.list [Value.num 2])
      (Value.list [Value.num 1]) [Value.num 1] [Value.num 2]
      (by decide)).2.2.2.2 rfl rfl

/-- Claim C2, counterexample: on the pair of empty documents,
`local-hostname` is absent after the generic merge and
`merge_meta_host_data` raises `KeyError` instead of skipping the
hostname-sync step and completing. -/
theorem hostname_sync_error_counterexample :
    merge_meta_host_data [] [] = Except.error (PyErr.keyError "local-hostname") ∧
    (merge_meta_host_data [] []).toOption = none :=
  ⟨rfl, rfl⟩

/-- Claim C2 (amended): whenever `merge_meta_host_data` returns a result,
the merged document satisfies `hostname == local-hostname` with
`local-hostname` present; when `local-hostname` is absent after the generic
merge, the function raises `KeyError('local-hostname')` instead of skipping
the sync step. -/
theorem hostname_sync_amended (m h : Dict) (r : Option Value) (d : Dict) :
    (merge_meta_host_data m h = Except.ok (r, d) →
      aget d "hostname" = aget d "local-hostname" ∧
      (aget d "local-hostname").isSome = true) ∧
    (aget (merge_into h m) "local-hostname" = none →
      merge_meta_host_data m h = Except.error (PyErr.keyError "local-hostname")) := by
  constructor
  · intro hok
    cases hlh : aget (merge_into h m) "local-hostname" with
    | none => simp [merge_meta_host_data, hlh] at hok
    | some lh =>
      simp only [merge_meta_host_data, hlh, Except.ok.injEq, Prod.mk.injEq] at hok
      obtain ⟨-, hd⟩ := hok
      subst hd
      have h1 : aget (aset (merge_into h m) "hostname" lh) "hostname" = some lh :=
        aget_aset_self _ _ _
      have h2 : aget (aset (merge_into h m) "hostname" lh) "local-hostname" = some lh := by
        rw [aget_aset_ne _ _ _ _ (by decide), hlh]
      simp [h1, h2]
  · intro hnone
    simp [merge_meta_host_data, hnone]

/-- Witness for `hostname_sync_amended` at the spec scenario: discovered
`{hostname: h1, local-hostname: h1}`, authoritative
`{local-hostname: custom}`. -/
theorem hostname_sync_amended_witness :
    aget [("hostname", Value.str "custom"), ("local-hostname", Value.str "custom")]
        "hostname"
      = aget [("hostname", Value.str "custom"), ("local-hostname", Value.str "custom")]
        "local-hostname" ∧
    (aget [("hostname", Value.str "custom"), ("local-hostname", Value.str "custom")]
        "local-hostname").isSome = true :=
  (hostname_sync_amended [("local-hostname", Value.str "custom")]
      [("hostname", Value.str "h1"), ("local-hostname", Value.str "h1")] none
      [("hostname", Value.str "custom"), ("local-hostname", Value.str "custom")]).1 rfl

/-- Claim C9: a successful `merge_meta_host_data` call returns Python
`None` (the body has no `return` statement), and the merged,
hostname-synced document is observable only as the final state of the
mutated `host_info` argument. -/
theorem merge_returns_none (m h : Dict) (out : Option Value × Dict)
    (hok : merge_meta_host_data m h = Except.ok out) :
    out.1 = none ∧
    (aget (merge_into h m) "local-hostname").isSome = true ∧
    out.2 = aset (merge_into h m) "hostname"
      ((aget (merge_into h m) "local-hostname").getD Value.null) := by
  cases hlh : aget (merge_into h m) "local-hostname" with
  | none => simp [merge_meta_host_data, hlh] at hok
  | some lh =>
    simp only [merge_meta_host_data, hlh, Except.ok.injEq] at hok
    subst hok
    simp [hlh]

/-- Witness for `merge_returns_none` at a concrete pair of documents. -/
theorem merge_returns_none_witness :
    ((none : Option Value),
      ([("local-hostname", Value.str "h"), ("hostname", Value.str "h")] : Dict)).1 = none ∧
    (aget (merge_into [("local-hostname", Value.str "h")] ([] : Dict))
      "local-hostname").isSome = true ∧
    ((none : Option Value),
      ([("local-hostname", Value.str "h"), ("hostname", Value.str "h")] : Dict)).2
      = aset (merge_into [("local-hostname", Value.str "h")] ([] : Dict)) "hostname"
        ((aget (merge_into [("local-hostname", Value.str "h")] ([] : Dict))
          "local-hostname").getD Value.null) :=
  merge_returns_none [] [("local-hostname", Value.str "h")]
    (none, [("local-hostname", Value.str "h"), ("hostname", Value.str "h")]) rfl

/-- Claim C3, counterexample: metadata `{network: {}}` contains a `network`
key whose value is a mapping, yet the resolved document is empty — the
`if network:` truthiness test drops a falsy (empty) mapping instead of
wrapping it as `{config: {}}`. -/
theorem network_empty_mapping_counterexample :
    load_metadata_resolve sampleDecode sampleLoad [("network", Value.dict [])]
      = Except.ok [] ∧
    aget ([] : Dict) "network" = none :=
  ⟨rfl, rfl⟩

/-- Claim C3 (amended): for every parsed metadata mapping whose `network`
value is a non-empty (truthy) mapping, resolution wraps it as
`{config: <the mapping>}` in place of the original entry. -/
theorem network_inline_mapping_wrapped (dF : Option Value → Value → Except PyErr Value)
    (lF : Value → Except PyErr Value) (data m : Dict)
    (h1 : aget data "network" = some (Value.dict m)) (h2 : m.isEmpty = false) :
    load_metadata_resolve dF lF data
      = Except.ok (aset (adel (adel data "network") "network.encoding") "network"
          (Value.dict [("config", Value.dict m)])) := by
  simp [load_metadata_resolve, h1, Value.truthy, h2]

/-- Witness for `network_inline_mapping_wrapped` at the spec scenario
`{"instance-id": "iid-1", "network": {"dhcp": true}}`. -/
theorem network_inline_mapping_wrapped_witness :
    load_metadata_resolve sampleDecode sampleLoad
        [("instance-id", Value.str "iid-1"),
         ("network", Value.dict [("dhcp", Value.bool true)])]
      = Except.ok [("instance-id", Value.str "iid-1"),
          ("network", Value.dict [("config", Value.dict [("dhcp", Value.bool true)])])] :=
  network_inline_mapping_wrapped sampleDecode sampleLoad
    [("instance-id", Value.str "iid-1"),
     ("network", Value.dict [("dhcp", Value.bool true)])]
    [("dhcp", Value.bool true)] rfl rfl

/-- Helper: every successful result of `load_metadata_resolve` is the input
with `network` and `network.encoding` removed, possibly with a rebuilt
`network` entry set. -/
theorem load_metadata_resolve_shape (dF : Option Value → Value → Except PyErr Value)
    (lF : Value → Except PyErr Value) (data res : Dict)
    (hok : load_metadata_resolve dF lF data = Except.ok res) :
    res = adel (adel data "network") "network.encoding" ∨
    ∃ cfg, res = aset (adel (adel data "network") "network.encoding") "network" cfg := by
  simp only [load_metadata_resolve] at hok
  split at hok
  · exact Or.inl (Except.ok.inj hok).symm
  · rename_i nw heq
    split at hok
    · split at hok
      · exact Or.inr ⟨_, (Except.ok.inj hok).symm⟩
      · cases hdf : dF (aget (adel data "network") "network.encoding") nw with
        | error e =>
          simp only [hdf, Bind.bind, Except.bind] at hok
          exact Except.noConfusion hok
        | ok dec_net =>
          cases hlf : lF dec_net with
          | error e =>
            simp only [hdf, hlf, Bind.bind, Except.bind] at hok
            exact Except.noConfusion hok
          | ok cfg =>
            simp only [hdf, hlf, Bind.bind, Except.bind, Except.ok.injEq] at hok
            exact Or.inr ⟨_, hok.symm⟩
    · exact Or.inl (Except.ok.inj hok).symm

/-- Claim C6: the resolved metadata document never contains the key
`network.encoding`, whatever the shape of the input mapping and whatever
the decode/parse callbacks do. -/
theorem network_encoding_removed (dF : Option Value → Value → Except PyErr Value)
    (lF : Value → Except PyErr Value) (data res : Dict)
    (hok : load_metadata_resolve dF lF data = Except.ok res) :
    aget res "network.encoding" = none := by
  have hbase : aget (adel (adel data "network") "network.encoding") "network.encoding"
      = none := aget_adel_self _ _
  rcases load_metadata_resolve_shape dF lF data res hok with h | ⟨cfg, h⟩
  · rw [h]
    exact hbase
  · rw [h, aget_aset_ne _ _ _ _ (by decide)]
    exact hbase

/-- Witness for `network_encoding_removed` on a document that declares
`network.encoding` next to an encoded `network` string. -/
theorem network_encoding_removed_witness :
    aget [("network", Value.dict [("config", Value.dict [("dhcp", Value.bool true)])])]
      "network.encoding" = none :=
  network_encoding_removed sampleDecode sampleLoad
    [("network", Value.str "eyJkaGNwIjp0cnVlfQ=="), ("network.encoding", Value.str "base64")]
    [("network", Value.dict [("config", Value.dict [("dhcp", Value.bool true)])])] rfl

/-- Claim C5: `load` tries the strict parser first and returns its
successful result; on any strict-parse failure it returns exactly the
permissive parser's outcome on the same text, so when both fail the
permissive parser's error is the one surfaced. -/
theorem load_json_fallback (jf yf : String → Except PyErr Value) (s : String)
    (v : Value) (e : PyErr) (hs : s ≠ "") :
    (jf s = Except.ok v → load jf yf (some s) = Except.ok v) ∧
    (jf s = Except.error e → load jf yf (some s) = yf s) := by
  have hb : (s == "") = false := by simpa using hs
  constructor
  · intro h
    simp [load, hb, h]
  · intro h
    simp [load, hb, h]

/-- Witness for `load_json_fallback` on text the strict parser rejects. -/
theorem load_json_fallback_witness :
    load sampleJson sampleYaml (some "x") = sampleYaml "x" :=
  (load_json_fallback sampleJson sampleYaml "x" (Value.num 1) PyErr.valueError
    (by decide)).2 rfl

/-- Claim C8: decode is a left inverse of encode for both supported
transforms — for any plaintext, decoding the base64 (resp. gzip+base64)
encoded form with that declared encoding returns the plaintext, given the
library transforms' round-trip contracts. -/
theorem decode_roundtrip {β : Type} (b64encode : β → String)
    (b64decode : String → Except PyErr β) (zlib_compress : β → β)
    (zlib_decompress : β → Except PyErr β) (utf8encode : String → β)
    (utf8 : β → Except PyErr String) (key plaintext : String)
    (hb : ∀ x, b64decode (b64encode x) = Except.ok x)
    (hz : ∀ x, zlib_decompress (zlib_compress x) = Except.ok x)
    (hu : ∀ s, utf8 (utf8encode s) = Except.ok s) :
    decode b64decode zlib_decompress utf8 key (some "base64")
        (b64encode (utf8encode plaintext)) = Except.ok plaintext ∧
    decode b64decode zlib_decompress utf8 key (some "gzip+base64")
        (b64encode (zlib_compress (utf8encode plaintext))) = Except.ok plaintext := by
  constructor <;> simp [decode, hb, hz, hu, Bind.bind, Except.bind]

/-- Witness for `decode_roundtrip` with the byte type instantiated to
strings and identity transforms. -/
theorem decode_roundtrip_witness :
    decode (fun s => Except.ok s) (fun s => Except.ok s) (fun s => Except.ok s)
        "guestinfo.userdata" (some "base64") "hello" = Except.ok "hello" ∧
    decode (fun s => Except.ok s) (fun s => Except.ok s) (fun s => Except.ok s)
        "guestinfo.userdata" (some "gzip+base64") "hello" = Except.ok "hello" :=
  decode_roundtrip id (fun s => Except.ok s) id (fun s => Except.ok s) id
    (fun s => Except.ok s) "guestinfo.userdata" "hello"
    (fun _ => rfl) (fun _ => rfl) (fun _ => rfl)

/-- Claim C10: when the fetched raw value for a key is falsy (empty string,
or absent), `guestinfo` returns `None` having fetched only that key — the
sibling `.encoding` key is not fetched, `decode` is not invoked (the result
does not depend on `dec` at all), and an empty value is indistinguishable
from an absent one. -/
theorem guestinfo_empty_short_circuit (getv getv2 : String → Option String)
    (dec dec2 : String → Option String → String → Except PyErr String) (key : String)
    (h : optFalsy (getv key) = true) (h2 : getv2 key = none) :
    guestinfo getv dec key = (Except.ok none, [key]) ∧
    guestinfo getv2 dec2 key = (Except.ok none, [key]) := by
  constructor
  · simp [guestinfo, h]
  · simp [guestinfo, h2, optFalsy]

/-- Witness for `guestinfo_empty_short_circuit`: an oracle returning the
empty string and an oracle returning nothing produce the same outcome. -/
theorem guestinfo_empty_short_circuit_witness :
    guestinfo (fun _ => some "") (fun _ _ s => Except.ok s) "userdata"
      = (Except.ok none, ["userdata"]) ∧
    guestinfo (fun _ => none) (fun _ _ s => Except.ok s) "userdata"
      = (Except.ok none, ["userdata"]) :=
  guestinfo_empty_short_circuit (fun _ => some "") (fun _ => none)
    (fun _ _ s => Except.ok s) (fun _ _ s => Except.ok s) "userdata" rfl rfl

/-- Claim C4: cross-inference in `get_default_ip_addrs` is not symmetric.
On a dual-stack device with a single address per family, the IPv4-default
case infers the IPv6 address without error, but the mirrored IPv6-default
case raises `AttributeError` because line 372 references
`netifaces.AF_INET4`, an attribute the `netifaces` module does not export
(the existing constant is `AF_INET`). -/
theorem af_inet4_attribute_error :
    get_default_ip_addrs netStCross4 = Except.ok (some "10.0.0.2", some "fe80::2") ∧
    get_default_ip_addrs netStCross6 = Except.error (PyErr.attributeError "AF_INET4") :=
  ⟨rfl, rfl⟩

/-! Invariants of the HostFacts interface indexes. -/

theorem mem_of_aget_eq_some {κ α : Type} [DecidableEq κ] (l : List (κ × α)) (k : κ) (v : α)
    (h : aget l k = some v) : (k, v) ∈ l := by
  induction l with
  | nil => simp [aget] at h
  | cons p t ih =>
    obtain ⟨k1, v1⟩ := p
    by_cases hk : k = k1
    · subst hk
      simp only [aget, if_true, eq_self_iff_true, Option.some.injEq] at h
      subst h
      exact List.mem_cons_self _ _
    · simp only [aget, if_neg hk] at h
      exact List.mem_cons_of_mem _ (ih h)

theorem aget_recToValue (r : AddrRec) (k : String) :
    aget (r.map fun p => (p.1, Value.str p.2)) k = (aget r k).map Value.str := by
  induction r with
  | nil => simp [aget]
  | cons p t ih =>
    obtain ⟨k1, v1⟩ := p
    by_cases hk : k = k1 <;> simp [aget, hk, ih]

theorem isZeroMacEntry_recToValue (val : AddrRec) :
    isZeroMacEntry (recToValue val)
      = match aget val "mac" with
        | some m => m == zeroMac
        | none => false := by
  simp only [isZeroMacEntry, recToValue, aget_recToValue]
  cases aget val "mac" <;> rfl

theorem all_aset (l : List (String × Value)) (k : String) (v : Value)
    (f : String × Value → Bool) (hl : l.all f = true) (hv : f (k, v) = true) :
    (aset l k v).all f = true := by
  rw [List.all_eq_true] at hl ⊢
  intro p hp
  rcases mem_of_mem_aset _ _ _ _ hp with h | h
  · exact hl p h
  · rw [h]; exact hv

theorem netWF_recs (st : NetState) (hwf : netWF st = true) (dev : String) (fams : Fams)
    (haf : aget st.ifaddrs dev = some fams) (af : Nat) (recs : List AddrRec)
    (har : aget fams af = some recs) : ∀ r ∈ recs, aget r "mac" = none := by
  intro r hr
  have h1 := (List.all_eq_true.mp hwf) (dev, fams) (mem_of_aget_eq_some _ _ _ haf)
  have h2 := (List.all_eq_true.mp h1) (af, recs) (mem_of_aget_eq_some _ _ _ har)
  have h3 := (List.all_eq_true.mp h2) r hr
  exact Option.isNone_iff_eq_none.mp h3

theorem record_ips_clean (lb : String) (mac : Option String) (hm : mac ≠ some zeroMac) :
    ∀ (recs : List AddrRec) (idx idx2 : List (String × Value)),
      (∀ r ∈ recs, aget r "mac" = none) →
      record_ips lb mac idx recs = Except.ok idx2 →
      aget idx lb = none →
      idx.all (fun p => !isZeroMacEntry p.2) = true →
      aget idx2 lb = none ∧ idx2.all (fun p => !isZeroMacEntry p.2) = true := by
  intro recs
  induction recs with
  | nil =>
    intro idx idx2 hwfr hok h1 h2
    simp only [record_ips, Except.ok.injEq] at hok
    rw [← hok]
    exact ⟨h1, h2⟩
  | cons r rest ih =>
    intro idx idx2 hwfr hok h1 h2
    simp only [record_ips] at hok
    split at hok
    · exact Except.noConfusion hok
    · rename_i key hkey
      split at hok
      · exact ih idx idx2 (fun q hq => hwfr q (List.mem_cons_of_mem _ hq)) hok h1 h2
      · rename_i hkl
        have hlk : lb ≠ key := by
          intro hh
          exact hkl (by simp [hh])
        have hrmac : aget r "mac" = none := hwfr r (List.mem_cons_self r rest)
        have hdel : aget (adel r "addr") "mac" = none := by
          rw [aget_adel_ne _ _ _ (by decide)]
          exact hrmac
        refine ih _ idx2 (fun q hq => hwfr q (List.mem_cons_of_mem _ hq)) hok ?_ ?_
        · rw [aget_aset_ne _ _ _ _ hlk]
          exact h1
        · refine all_aset _ _ _ _ h2 ?_
          cases mac with
          | none => simp [isZeroMacEntry_recToValue, hdel]
          | some m =>
            by_cases hm2 : (m != "") = true
            · have hmz : ¬(m == zeroMac) = true := by
                intro hh
                exact hm (by simp_all)
              simp [hm2, isZeroMacEntry_recToValue, aget_aset_self, hmz]
            · simp only [Bool.not_eq_true] at hm2
              simp [hm2, isZeroMacEntry_recToValue, hdel]

theorem byMacUpdate_zero_free (by_mac : List (String × Value)) (mac : Option String)
    (a4 a6 : Option (List AddrRec)) (hm : mac ≠ some zeroMac)
    (h : (aget by_mac zeroMac).isNone = true) :
    (aget (byMacUpdate by_mac mac a4 a6) zeroMac).isNone = true := by
  cases mac with
  | none => exact h
  | some m =>
    have hmz : zeroMac ≠ m := by
      intro hh
      exact hm (by rw [hh])
    simp only [byMacUpdate]
    split
    · rw [aget_aset_ne _ _ _ _ hmz]
      exact h
    · exact h

theorem host_iface_step_clean (st : NetState) (acc acc2 : Idx3) (dev : String)
    (hwf : netWF st = true) (hok : host_iface_step st acc dev = Except.ok acc2)
    (hinv : cleanIdx acc.1 acc.2.1 acc.2.2 = true) :
    cleanIdx acc2.1 acc2.2.1 acc2.2.2 = true := by
  simp only [cleanIdx, Bool.and_eq_true] at hinv
  obtain ⟨⟨⟨⟨hm0, h40⟩, h60⟩, h4a⟩, h6a⟩ := hinv
  simp only [host_iface_step, ifaddresses, Bind.bind, Except.bind] at hok
  split at hok
  · exact Except.noConfusion hok
  · rename_i fams haf
    have haf2 : aget st.ifaddrs dev = some fams := by
      cases hx : aget st.ifaddrs dev with
      | none =>
        rw [hx] at haf
        exact Except.noConfusion haf
      | some f =>
        rw [hx] at haf
        exact congrArg some (Except.ok.inj haf)
    split at hok
    · rw [← Except.ok.inj hok]
      simp [cleanIdx, hm0, h40, h60, h4a, h6a]
    · rename_i hz
      have hm : devMac fams ≠ some zeroMac := by
        intro hh
        exact hz (by simp [hh, zeroMac])
      have hwfr4 : ∀ r ∈ (aget fams AF_INET).getD [], aget r "mac" = none := by
        intro r hr
        cases har : aget fams AF_INET with
        | none => simp [har] at hr
        | some recs =>
          rw [har] at hr
          exact netWF_recs st hwf dev fams haf2 AF_INET recs har r (by simpa using hr)
      have hwfr6 : ∀ r ∈ (aget fams AF_INET6).getD [], aget r "mac" = none := by
        intro r hr
        cases har : aget fams AF_INET6 with
        | none => simp [har] at hr
        | some recs =>
          rw [har] at hr
          exact netWF_recs st hwf dev fams haf2 AF_INET6 recs har r (by simpa using hr)
      have hbm : (aget (byMacUpdate acc.1 (devMac fams) (aget fams AF_INET)
          (aget fams AF_INET6)) zeroMac).isNone = true :=
        byMacUpdate_zero_free _ _ _ _ hm hm0
      by_cases ht4 : famTruthy (aget fams AF_INET) = true
      · rw [if_pos ht4] at hok
        split at hok
        · exact Except.noConfusion hok
        · rename_i b4 he4
          have hb4 := record_ips_clean "127.0.0.1" (devMac fams) hm _ _ _ hwfr4 he4
            (Option.isNone_iff_eq_none.mp h40) h4a
          by_cases ht6 : famTruthy (aget fams AF_INET6) = true
          · rw [if_pos ht6] at hok
            split at hok
            · exact Except.noConfusion hok
            · rename_i b6 he6
              have hb6 := record_ips_clean "::1" (devMac fams) hm _ _ _ hwfr6 he6
                (Option.isNone_iff_eq_none.mp h60) h6a
              rw [← Except.ok.inj hok]
              simp [cleanIdx, hbm, hb4.1, hb4.2, hb6.1, hb6.2]
          · rw [if_neg ht6] at hok
            rw [← Except.ok.inj hok]
            simp [cleanIdx, hbm, hb4.1, hb4.2, h60, h6a]
      · rw [if_neg ht4] at hok
        by_cases ht6 : famTruthy (aget fams AF_INET6) = true
        · rw [if_pos ht6] at hok
          split at hok
          · exact Except.noConfusion hok
          · rename_i b6 he6
            have hb6 := record_ips_clean "::1" (devMac fams) hm _ _ _ hwfr6 he6
              (Option.isNone_iff_eq_none.mp h60) h6a
            rw [← Except.ok.inj hok]
            simp [cleanIdx, hbm, h40, h4a, hb6.1, hb6.2]
        · rw [if_neg ht6] at hok
          rw [← Except.ok.inj hok]
          simp [cleanIdx, hbm, h40, h60, h4a, h6a]

theorem host_iface_loop_clean (st : NetState) (hwf : netWF st = true) :
    ∀ (devs : List String) (acc acc2 : Idx3),
      host_iface_loop st acc devs = Except.ok acc2 →
      cleanIdx acc.1 acc.2.1 acc.2.2 = true →
      cleanIdx acc2.1 acc2.2.1 acc2.2.2 = true := by
  intro devs
  induction devs with
  | nil =>
    intro acc acc2 hok hinv
    simp only [host_iface_loop, Except.ok.injEq] at hok
    rw [← hok]
    exact hinv
  | cons dev rest ih =>
    intro acc acc2 hok hinv
    simp only [host_iface_loop, Bind.bind, Except.bind] at hok
    cases hs : host_iface_step st acc dev with
    | error e =>
      rw [hs] at hok
      exact Except.noConfusion hok
    | ok acc1 =>
      rw [hs] at hok
      exact ih acc1 acc2 hok (host_iface_step_clean st acc acc1 dev hwf hs hinv)

theorem aget_hostname_block (b : Dict) (hostname : String) (q : String)
    (h1 : q ≠ "hostname") (h2 : q ≠ "local-hostname") :
    aget (if hostname != "" then
        aset (aset b "hostname" (Value.str hostname)) "local-hostname" (Value.str hostname)
      else b) q = aget b q := by
  by_cases hh : (hostname != "") = true
  · rw [if_pos hh, aget_aset_ne _ _ _ _ h2, aget_aset_ne _ _ _ _ h1]
  · rw [if_neg hh]

theorem aget_default_block (b : Dict) (o : Option String) (k q : String)
    (h : q ≠ k) :
    aget (match o with
          | some a => if a != "" then aset b k (Value.str a) else b
          | none => b) q = aget b q := by
  cases o with
  | none => rfl
  | some a =>
    show aget (if a != "" then aset b k (Value.str a) else b) q = aget b q
    by_cases ha : (a != "") = true
    · rw [if_pos ha]
      exact aget_aset_ne _ _ _ _ h
    · rw [if_neg ha]

/-- Claim C7: whatever the host network state (with `netifaces` address
records carrying no spurious `mac` field), a successful `get_host_info` run
produces a document whose `by-ipv4` index has no `127.0.0.1` key, whose
`by-ipv6` index has no `::1` key, whose `by-mac` index has no all-zero-MAC
key, and none of whose recorded address entries is attributed to the
all-zero MAC. -/
theorem host_indexes_clean (st : NetState) (hostname : String) (doc : Value)
    (hwf : netWF st = true) (hok : get_host_info st hostname = Except.ok doc) :
    cleanDoc doc = true := by
  simp only [get_host_info, Bind.bind, Except.bind] at hok
  cases hd : get_default_ip_addrs st with
  | error e =>
    rw [hd] at hok
    exact Except.noConfusion hok
  | ok defaults =>
    rw [hd] at hok
    cases hl : host_iface_loop st ([], [], []) st.interfaces with
    | error e =>
      rw [hl] at hok
      exact Except.noConfusion hok
    | ok idx =>
      rw [hl] at hok
      have hclean : cleanIdx idx.1 idx.2.1 idx.2.2 = true :=
        host_iface_loop_clean st hwf st.interfaces ([], [], []) idx hl rfl
      rw [← Except.ok.inj hok]
      simp only [cleanDoc, hf_index]
      rw [aget_default_block _ _ _ _ (by decide), aget_default_block _ _ _ _ (by decide),
        aget_hostname_block _ _ _ (by decide) (by decide)]
      simpa [aget] using hclean

/-- Witness for `host_indexes_clean` at a concrete state with a loopback
device (all-zero MAC, loopback addresses) and a regular device that also
carries a spurious `127.0.0.1` record. -/
theorem host_indexes_clean_witness :
    netWF netStHost = true ∧ cleanDoc (hostDocOf netStHost "vm1.local") = true :=
  ⟨rfl, host_indexes_clean netStHost "vm1.local" (hostDocOf netStHost "vm1.local") rfl rfl⟩
